import Mathlib

/-!
Shallow embedding of the email dispatch engine in `src/email_sender.py`
(module `email_sender`, class `EmailSender`), together with theorems that
settle the specification claims about it.

Conventions of the embedding:
* Python strings are `String`; lists are `List`; `dict` (which preserves
  insertion order and has unique keys) is an association list
  `List (String × _)` queried with `List.lookup`.
* External effects are parameters: the markdown library
  (`markdown.markdown(..., extensions=[...])`) is an uninterpreted function
  `md2html : String → String`; the outcome of the single
  `aiosmtplib.send` protocol call of an attempt is a Boolean oracle
  `netOk`; the simulated outcome (`random.random() > 0.15`) is a Boolean
  oracle `simSuccess`; the file system is a finite map from existing
  paths to their sizes in bytes.
* The status callback may itself raise; `cbRaises nid st = true` means the
  call `status_callback(nid, st)` raises.  Every callback invocation is
  recorded in the attempt's event list, in invocation order, whether or
  not it raises.
-/

/-- Per-recipient delivery status transition reported through the status
callback (`"sending"`, `"success"`, `"error"` in the source). -/
inductive Status where
  | sending : Status
  | success : Status
  | error : Status
deriving DecidableEq, Repr

/-- `SMTPConfig` dataclass: configuration of one SMTP server. -/
structure SMTPConfig where
  host : String
  port : Nat
  use_tls : Bool
  email : String := ""
  password : String := ""
deriving DecidableEq, Repr

/-- `EmailTask` dataclass: one send request. -/
structure EmailTask where
  task_id : String
  recipients : List String
  subject : String
  body : String
  attachments : List String
  server : String
  status : String := "waiting"
deriving DecidableEq, Repr

/-- The `smtp_config` module that `email_sender` tries to import
(`TEST_MODE` plus the six credential strings). -/
structure SmtpConfigModule where
  TEST_MODE : Bool
  GMAIL_EMAIL : String
  GMAIL_PASSWORD : String
  YANDEX_EMAIL : String
  YANDEX_PASSWORD : String
  OUTLOOK_EMAIL : String
  OUTLOOK_PASSWORD : String
deriving DecidableEq, Repr

/-- Module-level `TEST_MODE` after the `try: import smtp_config
except ImportError:` block: the imported value when the module exists,
`True` when the import fails. -/
def moduleTEST_MODE : Option SmtpConfigModule → Bool
  | some m => m.TEST_MODE
  | none => true

/-- Module-level credential globals after the import block: the imported
values, or six empty strings when the import fails.  Returned in the order
(gmail email, gmail password, yandex email, yandex password, outlook
email, outlook password). -/
def moduleCredentials : Option SmtpConfigModule → String × String × String × String × String × String
  | some m => (m.GMAIL_EMAIL, m.GMAIL_PASSWORD, m.YANDEX_EMAIL, m.YANDEX_PASSWORD,
               m.OUTLOOK_EMAIL, m.OUTLOOK_PASSWORD)
  | none => ("", "", "", "", "", "")

/-- `get_smtp_servers()`: the registry of the three named servers, with
credentials taken from the module globals. -/
def get_smtp_servers (ge gp ye yp oe op : String) : List (String × SMTPConfig) :=
  [("Gmail", { host := "smtp.gmail.com", port := 465, use_tls := true,
               email := ge, password := gp }),
   ("Yandex", { host := "smtp.yandex.ru", port := 465, use_tls := true,
                email := ye, password := yp }),
   ("Outlook", { host := "smtp.office365.com", port := 587, use_tls := true,
                 email := oe, password := op })]

/-- `EmailSender.__init__`'s mode selection:
`self.test_mode = test_mode if test_mode is not None else TEST_MODE`. -/
def initTestMode (cfg : Option SmtpConfigModule) (test_mode : Option Bool) : Bool :=
  match test_mode with
  | some b => b
  | none => moduleTEST_MODE cfg

/-- Python `s.replace(pat, repl)` for a one-character pattern `c` (the
source only ever calls `replace` with the one-character patterns `"@"`
and `"."`): every occurrence of `c` is replaced by `repl`. -/
def replaceCharWith (c : Char) (repl : String) (s : String) : String :=
  String.mk (s.toList.foldr (fun ch acc => if ch = c then repl.toList ++ acc else ch :: acc) [])

/-- `EmailSender.sanitize_notification_id`:
`recipient.replace("@", "_at_").replace(".", "_")` prefixed with
`f"{task_id}_"`.  `EmailSender.send_to_recipient` computes `notif_id`
with the literally identical expression, so the embedding shares this
definition. -/
def sanitize_notification_id (task_id recipient : String) : String :=
  task_id ++ "_" ++ replaceCharWith '.' "_" (replaceCharWith '@' "_at_" recipient)

/-- File system model: association list from the paths that exist to
their sizes in bytes (`Path.exists` / `Path.stat().st_size`).  Files
present in the map are readable. -/
def FileSystem : Type := List (String × Nat)

/-- Warnings the attachment loop of `_send_via_smtp` logs. -/
inductive BuildWarning where
  | attachmentNotFound : String → BuildWarning
  | largeFile : String → Nat → BuildWarning
deriving DecidableEq, Repr

/-- The transmittable MIME message assembled by `_send_via_smtp`
(`MIMEMultipart('alternative')` with a plain-text part, an HTML part and
one base64 part per attached file, identified here by its path). -/
structure BuiltMessage where
  fromAddr : String
  toAddr : String
  subject : String
  textPart : String
  htmlPart : String
  attachments : List String
deriving DecidableEq, Repr

/-- `EmailSender._wrap_html_template`: wraps the HTML fragment in the
fixed document template (literal braces of the Python f-string's CSS are
written escaped). -/
def wrapHtmlTemplate (html_content : String) : String :=
  "\n<!DOCTYPE html>\n<html lang=\"ru\">\n<head>\n    <meta charset=\"UTF-8\">\n    <meta name=\"viewport\" content=\"width=device-width, initial-scale=1.0\">\n    <style>\n        body \x7b\n            font-family: -apple-system, BlinkMacSystemFont, \x27Segoe UI\x27, Roboto, \x27Helvetica Neue\x27, Arial, sans-serif;\n            line-height: 1.6;\n            color: #333;\n            max-width: 600px;\n            margin: 0 auto;\n            padding: 20px;\n        \x7d\n        code \x7b\n            background-color: #f4f4f4;\n            padding: 2px 6px;\n            border-radius: 3px;\n            font-family: \x27Courier New\x27, monospace;\n        \x7d\n        pre \x7b\n            background-color: #f4f4f4;\n            padding: 10px;\n            border-radius: 5px;\n            overflow-x: auto;\n        \x7d\n        blockquote \x7b\n            border-left: 4px solid #ddd;\n            margin: 0;\n            padding-left: 15px;\n            color: #666;\n        \x7d\n        table \x7b\n            border-collapse: collapse;\n            width: 100%;\n        \x7d\n        table th, table td \x7b\n            border: 1px solid #ddd;\n            padding: 8px;\n            text-align: left;\n        \x7d\n        table th \x7b\n            background-color: #f4f4f4;\n        \x7d\n    </style>\n</head>\n<body>\n    " ++ html_content ++ "\n</body>\n</html>\n"

/-- The attachment loop of `_send_via_smtp`: for each path in order, a
missing file is skipped with an `attachmentNotFound` warning; an existing
file larger than 25 MB (`file_size / (1024*1024) > 25`) is attached with
a `largeFile` warning; any other existing file is attached.  Returns the
attached paths in order and the warnings in order. -/
def buildAttachments (fs : FileSystem) : List String → List String × List BuildWarning
  | [] => ([], [])
  | p :: rest =>
    let aw := buildAttachments fs rest
    match List.lookup p fs with
    | none => (aw.1, BuildWarning.attachmentNotFound p :: aw.2)
    | some size =>
      if size > 25 * 1024 * 1024 then (p :: aw.1, BuildWarning.largeFile p size :: aw.2)
      else (p :: aw.1, aw.2)

/-- Message construction of `_send_via_smtp` (lines 292–384): the
multipart/alternative message with `From` = the profile's sender address,
`To` = the single recipient, the task's subject, the raw Markdown body as
the plain-text part, the wrapped conversion `md2html` of the body as the
HTML part, and the surviving attachments. -/
def buildMessage (md2html : String → String) (fs : FileSystem) (fromAddr recipient : String)
    (task : EmailTask) : BuiltMessage × List BuildWarning :=
  let aw := buildAttachments fs task.attachments
  ({ fromAddr := fromAddr, toAddr := recipient, subject := task.subject,
     textPart := task.body,
     htmlPart := wrapHtmlTemplate (md2html task.body),
     attachments := aw.1 }, aw.2)

/-- Observable outcome of one `_send_via_smtp` call. -/
structure SmtpSendResult where
  /-- the returned Boolean -/
  result : Bool
  /-- how many times the MIME message was assembled in this call -/
  builds : Nat
  /-- how many `aiosmtplib.send` protocol calls were attempted -/
  netAttempts : Nat
  /-- `some true` when the attempted protocol call used implicit TLS
  (`use_tls and port == 465`), `some false` for the STARTTLS branch,
  `none` when no call was attempted -/
  implicitTls : Option Bool
  /-- the message handed to the protocol call, when one was built -/
  message : Option BuiltMessage
  /-- attachment warnings logged during the build -/
  warnings : List BuildWarning
deriving DecidableEq, Repr

/-- `EmailSender._send_via_smtp`: resolve the task's server in the
registry (unknown server → `False`, nothing built, no protocol call);
check that both credentials are non-empty (`not smtp_config.email or not
smtp_config.password` → `False`, nothing built, no protocol call);
otherwise build the message once and attempt the protocol call exactly
once, whose outcome `netOk` (success, or any exception caught by the
enclosing `try`) is the returned Boolean. -/
def send_via_smtp (md2html : String → String) (servers : List (String × SMTPConfig))
    (fs : FileSystem) (netOk : Bool) (recipient : String) (task : EmailTask) : SmtpSendResult :=
  match List.lookup task.server servers with
  | none =>
    { result := false, builds := 0, netAttempts := 0, implicitTls := none,
      message := none, warnings := [] }
  | some cfg =>
    if cfg.email = "" ∨ cfg.password = "" then
      { result := false, builds := 0, netAttempts := 0, implicitTls := none,
        message := none, warnings := [] }
    else
      let mw := buildMessage md2html fs cfg.email recipient task
      { result := netOk, builds := 1, netAttempts := 1,
        implicitTls := some (cfg.use_tls && cfg.port == 465),
        message := some mw.1, warnings := mw.2 }

/-- Observable outcome of one `send_to_recipient` attempt. -/
structure AttemptResult where
  /-- callback invocations `(notification id, status)` in order -/
  events : List (String × Status)
  /-- whether an exception escaped `send_to_recipient` -/
  escaped : Bool
  /-- result of the `_send_via_smtp` call, when real mode reached it -/
  smtp : Option SmtpSendResult
  /-- the computed `success` Boolean, when the attempt reached it -/
  sent : Option Bool
deriving DecidableEq, Repr

/-- `EmailSender.send_to_recipient`: derive `notif_id`; invoke the
callback with `"sending"` (outside the `try`, so if it raises the
exception escapes and nothing further runs); inside the `try` compute
`success` — by the `simSuccess` oracle in test mode, by `_send_via_smtp`
in real mode — and invoke the callback with the terminal status; if that
invocation raises, the `except` handler invokes the callback once more
with `"error"`, and an exception from that last call escapes.  The
callback is modelled as registered (`self.status_callback` non-None). -/
def send_to_recipient (test_mode : Bool) (md2html : String → String)
    (servers : List (String × SMTPConfig)) (fs : FileSystem)
    (netOk simSuccess : Bool) (cbRaises : String → Status → Bool)
    (recipient : String) (task : EmailTask) : AttemptResult :=
  let notif_id := sanitize_notification_id task.task_id recipient
  if cbRaises notif_id Status.sending then
    { events := [(notif_id, Status.sending)], escaped := true, smtp := none, sent := none }
  else
    let smtpRes : Option SmtpSendResult :=
      if test_mode then none else some (send_via_smtp md2html servers fs netOk recipient task)
    let success : Bool :=
      if test_mode then simSuccess else (send_via_smtp md2html servers fs netOk recipient task).result
    let st : Status := if success then Status.success else Status.error
    if cbRaises notif_id st then
      { events := [(notif_id, Status.sending), (notif_id, st), (notif_id, Status.error)],
        escaped := cbRaises notif_id Status.error, smtp := smtpRes, sent := some success }
    else
      { events := [(notif_id, Status.sending), (notif_id, st)],
        escaped := false, smtp := smtpRes, sent := some success }

/-- `EmailSender.send_email_task`: one concurrent `send_to_recipient`
attempt per entry of `task.recipients`, each with its own protocol and
simulation oracles; returns the per-recipient outcomes in recipient
order. -/
def send_email_task (test_mode : Bool) (md2html : String → String)
    (servers : List (String × SMTPConfig)) (fs : FileSystem)
    (netOk simSuccess : String → Bool) (cbRaises : String → Status → Bool)
    (task : EmailTask) : List AttemptResult :=
  task.recipients.map (fun r =>
    send_to_recipient test_mode md2html servers fs (netOk r) (simSuccess r) cbRaises r task)

/-- Total number of MIME-message assemblies performed by a fan-out job. -/
def totalBuilds (results : List AttemptResult) : Nat :=
  (results.map (fun a => (a.smtp.map SmtpSendResult.builds).getD 0)).sum

/-- C6 — `sanitize_notification_id` is deterministic and matches the
reference substitution rule on the reference example: identical inputs
give identical output, and `sanitize("t1", "a.b@c.com") =
"t1_a_b_at_c_com"`. -/
theorem sanitize_deterministic_and_reference_value :
    (∀ t1 r1 t2 r2 : String, t1 = t2 → r1 = r2 →
      sanitize_notification_id t1 r1 = sanitize_notification_id t2 r2) ∧
    sanitize_notification_id "t1" "a.b@c.com" = "t1_a_b_at_c_com" := by
  constructor
  · intro t1 r1 t2 r2 ht hr
    rw [ht, hr]
  · rfl

/-- Witness for C6: the determinism clause applied at concrete inputs,
and the concrete reference value. -/
theorem sanitize_deterministic_witness :
    sanitize_notification_id "t1" "a.b@c.com" = sanitize_notification_id "t1" "a.b@c.com" ∧
    sanitize_notification_id "t1" "a.b@c.com" = "t1_a_b_at_c_com" :=
  ⟨sanitize_deterministic_and_reference_value.1 "t1" "a.b@c.com" "t1" "a.b@c.com" rfl rfl,
   sanitize_deterministic_and_reference_value.2⟩

/-- C10 — the notification-id derivation is not injective: the distinct
pairs `("a_b", "c@d.e")` and `("a", "b_c@d.e")` collide on
`"a_b_c_at_d_e"`. -/
theorem sanitize_not_injective :
    sanitize_notification_id "a_b" "c@d.e" = sanitize_notification_id "a" "b_c@d.e" ∧
    sanitize_notification_id "a_b" "c@d.e" = "a_b_c_at_d_e" ∧
    (("a_b", "c@d.e") : String × String) ≠ ("a", "b_c@d.e") := by
  refine ⟨rfl, rfl, ?_⟩
  decide

/-- The emptied `SmtpSendResult` that `_send_via_smtp` returns when it
fails before building anything. -/
def smtpConfigFailure : SmtpSendResult :=
  { result := false, builds := 0, netAttempts := 0, implicitTls := none,
    message := none, warnings := [] }

lemma send_via_smtp_unknown_server (md2html : String → String)
    (servers : List (String × SMTPConfig)) (fs : FileSystem) (netOk : Bool)
    (recipient : String) (task : EmailTask)
    (h : List.lookup task.server servers = none) :
    send_via_smtp md2html servers fs netOk recipient task = smtpConfigFailure := by
  unfold send_via_smtp
  rw [h]
  rfl

lemma send_via_smtp_missing_credentials (md2html : String → String)
    (servers : List (String × SMTPConfig)) (fs : FileSystem) (netOk : Bool)
    (recipient : String) (task : EmailTask) (cfg : SMTPConfig)
    (h : List.lookup task.server servers = some cfg)
    (hc : cfg.email = "" ∨ cfg.password = "") :
    send_via_smtp md2html servers fs netOk recipient task = smtpConfigFailure := by
  unfold send_via_smtp
  rw [h]
  simp only [if_pos hc]
  rfl

lemma send_via_smtp_configured (md2html : String → String)
    (servers : List (String × SMTPConfig)) (fs : FileSystem) (netOk : Bool)
    (recipient : String) (task : EmailTask) (cfg : SMTPConfig)
    (h : List.lookup task.server servers = some cfg)
    (he : cfg.email ≠ "") (hp : cfg.password ≠ "") :
    send_via_smtp md2html servers fs netOk recipient task =
      { result := netOk, builds := 1, netAttempts := 1,
        implicitTls := some (cfg.use_tls && cfg.port == 465),
        message := some (buildMessage md2html fs cfg.email recipient task).1,
        warnings := (buildMessage md2html fs cfg.email recipient task).2 } := by
  unfold send_via_smtp
  rw [h]
  simp only [if_neg (not_or.mpr ⟨he, hp⟩)]

lemma send_to_recipient_cb_total (test_mode : Bool) (md2html : String → String)
    (servers : List (String × SMTPConfig)) (fs : FileSystem)
    (netOk simSuccess : Bool) (cbRaises : String → Status → Bool)
    (recipient : String) (task : EmailTask)
    (hcb : ∀ n s, cbRaises n s = false) :
    send_to_recipient test_mode md2html servers fs netOk simSuccess cbRaises recipient task =
      { events := [(sanitize_notification_id task.task_id recipient, Status.sending),
                   (sanitize_notification_id task.task_id recipient,
                    if (if test_mode then simSuccess
                        else (send_via_smtp md2html servers fs netOk recipient task).result)
                    then Status.success else Status.error)],
        escaped := false,
        smtp := if test_mode then none
                else some (send_via_smtp md2html servers fs netOk recipient task),
        sent := some (if test_mode then simSuccess
                      else (send_via_smtp md2html servers fs netOk recipient task).result) } := by
  unfold send_to_recipient
  simp only [hcb, if_false, Bool.false_eq_true, ite_false]

/-- C8 — with no importable `smtp_config` module and no explicit
`test_mode` constructor argument, the sender runs in simulated mode, and
a simulated-mode attempt never reaches `_send_via_smtp` (no real SMTP
transmission is attempted). -/
theorem default_mode_is_simulated_and_sends_nothing :
    initTestMode none none = true ∧
    ∀ (md2html : String → String) (servers : List (String × SMTPConfig))
      (fs : FileSystem) (netOk simSuccess : Bool)
      (cbRaises : String → Status → Bool) (recipient : String) (task : EmailTask),
      (send_to_recipient (initTestMode none none) md2html servers fs netOk simSuccess
        cbRaises recipient task).smtp = none := by
  refine ⟨rfl, ?_⟩
  intro md2html servers fs netOk simSuccess cbRaises recipient task
  show (send_to_recipient true md2html servers fs netOk simSuccess cbRaises recipient task).smtp = none
  cases h1 : cbRaises (sanitize_notification_id task.task_id recipient) Status.sending
  · cases h2 : cbRaises (sanitize_notification_id task.task_id recipient)
        (if simSuccess then Status.success else Status.error)
    · simp [send_to_recipient, h1, h2]
    · simp [send_to_recipient, h1, h2]
  · simp [send_to_recipient, h1]

/-- Every path attached by the attachment loop exists in the file
system. -/
lemma buildAttachments_attached_exists (fs : FileSystem) (l : List String) :
    ∀ q ∈ (buildAttachments fs l).1, (List.lookup q fs).isSome := by
  induction l with
  | nil => intro q hq; simp [buildAttachments] at hq
  | cons p rest ih =>
    intro q hq
    rw [buildAttachments] at hq
    cases h : List.lookup p fs with
    | none =>
      simp only [h] at hq
      exact ih q hq
    | some size =>
      simp only [h] at hq
      by_cases hsz : size > 25 * 1024 * 1024
      · simp only [if_pos hsz, List.mem_cons] at hq
        rcases hq with rfl | hq'
        · simp [h]
        · exact ih q hq'
      · simp only [if_neg hsz, List.mem_cons] at hq
        rcases hq with rfl | hq'
        · simp [h]
        · exact ih q hq'

/-- A listed attachment path that does not exist produces an
`attachmentNotFound` warning. -/
lemma buildAttachments_missing_warns (fs : FileSystem) (l : List String) (p : String)
    (hmem : p ∈ l) (hmiss : List.lookup p fs = none) :
    BuildWarning.attachmentNotFound p ∈ (buildAttachments fs l).2 := by
  induction l with
  | nil => simp at hmem
  | cons q rest ih =>
    rw [buildAttachments]
    rcases List.mem_cons.mp hmem with rfl | hmem'
    · simp only [hmiss]
      exact List.mem_cons_self _ _
    · cases h : List.lookup q fs with
      | none =>
        simp only [h]
        exact List.mem_cons_of_mem _ (ih hmem')
      | some size =>
        simp only [h]
        by_cases hsz : size > 25 * 1024 * 1024
        · simp only [if_pos hsz]
          exact List.mem_cons_of_mem _ (ih hmem')
        · simp only [if_neg hsz]
          exact ih hmem'

/-- C5 — a real-mode attempt whose task names an unregistered server
profile, or a profile with an empty email or password, returns failure
immediately — nothing is built and no protocol call is attempted — and
the recipient's terminal transition is `error`. -/
theorem real_mode_unconfigured_profile_fails_without_network
    (md2html : String → String) (servers : List (String × SMTPConfig)) (fs : FileSystem)
    (netOk simSuccess : Bool) (cbRaises : String → Status → Bool)
    (recipient : String) (task : EmailTask)
    (hcb : ∀ n s, cbRaises n s = false)
    (hbad : List.lookup task.server servers = none ∨
      ∃ cfg, List.lookup task.server servers = some cfg ∧
        (cfg.email = "" ∨ cfg.password = "")) :
    (send_to_recipient false md2html servers fs netOk simSuccess cbRaises recipient task).smtp
      = some smtpConfigFailure ∧
    (send_to_recipient false md2html servers fs netOk simSuccess cbRaises recipient task).events
      = [(sanitize_notification_id task.task_id recipient, Status.sending),
         (sanitize_notification_id task.task_id recipient, Status.error)] ∧
    (send_to_recipient false md2html servers fs netOk simSuccess cbRaises recipient task).escaped
      = false := by
  have hs : send_via_smtp md2html servers fs netOk recipient task = smtpConfigFailure := by
    rcases hbad with h | ⟨cfg, h, hc⟩
    · exact send_via_smtp_unknown_server _ _ _ _ _ _ h
    · exact send_via_smtp_missing_credentials _ _ _ _ _ _ _ h hc
  rw [send_to_recipient_cb_total _ _ _ _ _ _ _ _ _ hcb, hs]
  exact ⟨rfl, rfl, rfl⟩

/-- Concrete task used by several witnesses: one recipient, Gmail
profile. -/
def exTaskGmail : EmailTask :=
  { task_id := "t1", recipients := ["bob@x.com"], subject := "s", body := "b",
    attachments := [], server := "Gmail" }

/-- Witness for C5: the Gmail profile with empty credentials fails the
attempt with an `error` transition and no build or protocol call. -/
theorem real_mode_unconfigured_profile_witness :
    (send_to_recipient false (fun s => s) (get_smtp_servers "" "" "" "" "" "") []
        true true (fun _ _ => false) "bob@x.com" exTaskGmail).smtp
      = some smtpConfigFailure ∧
    (send_to_recipient false (fun s => s) (get_smtp_servers "" "" "" "" "" "") []
        true true (fun _ _ => false) "bob@x.com" exTaskGmail).events
      = [(sanitize_notification_id exTaskGmail.task_id "bob@x.com", Status.sending),
         (sanitize_notification_id exTaskGmail.task_id "bob@x.com", Status.error)] ∧
    (send_to_recipient false (fun s => s) (get_smtp_servers "" "" "" "" "" "") []
        true true (fun _ _ => false) "bob@x.com" exTaskGmail).escaped = false :=
  real_mode_unconfigured_profile_fails_without_network (fun s => s)
    (get_smtp_servers "" "" "" "" "" "") [] true true (fun _ _ => false) "bob@x.com"
    exTaskGmail (fun _ _ => rfl)
    (Or.inr ⟨{ host := "smtp.gmail.com", port := 465, use_tls := true,
               email := "", password := "" }, by decide, Or.inl rfl⟩)

/-- C7 — a real-mode attempt with a configured profile whose task lists a
nonexistent attachment path still builds the message: the missing file is
omitted from the built message, a warning is recorded, and the attempt's
outcome is whatever the protocol call reports — the missing file does not
fail the attempt. -/
theorem missing_attachment_is_skipped_not_fatal
    (md2html : String → String) (servers : List (String × SMTPConfig)) (fs : FileSystem)
    (netOk simSuccess : Bool) (cbRaises : String → Status → Bool)
    (recipient : String) (task : EmailTask) (cfg : SMTPConfig) (p : String)
    (hcb : ∀ n s, cbRaises n s = false)
    (hcfg : List.lookup task.server servers = some cfg)
    (he : cfg.email ≠ "") (hpw : cfg.password ≠ "")
    (hmem : p ∈ task.attachments) (hmiss : List.lookup p fs = none) :
    ∃ r m, (send_to_recipient false md2html servers fs netOk simSuccess cbRaises recipient
        task).smtp = some r ∧
      r.message = some m ∧
      p ∉ m.attachments ∧
      BuildWarning.attachmentNotFound p ∈ r.warnings ∧
      r.result = netOk ∧
      (send_to_recipient false md2html servers fs netOk simSuccess cbRaises recipient
        task).events =
        [(sanitize_notification_id task.task_id recipient, Status.sending),
         (sanitize_notification_id task.task_id recipient,
          if netOk then Status.success else Status.error)] ∧
      (send_to_recipient false md2html servers fs netOk simSuccess cbRaises recipient
        task).escaped = false := by
  have hs := send_via_smtp_configured md2html servers fs netOk recipient task cfg hcfg he hpw
  refine ⟨send_via_smtp md2html servers fs netOk recipient task,
          (buildMessage md2html fs cfg.email recipient task).1, ?_, ?_, ?_, ?_, ?_, ?_, ?_⟩
  · rw [send_to_recipient_cb_total _ _ _ _ _ _ _ _ _ hcb]
    rfl
  · rw [hs]
  · intro hpmem
    have := buildAttachments_attached_exists fs task.attachments p hpmem
    rw [hmiss] at this
    simp at this
  · rw [hs]
    exact buildAttachments_missing_warns fs task.attachments p hmem hmiss
  · rw [hs]
  · rw [send_to_recipient_cb_total _ _ _ _ _ _ _ _ _ hcb, hs]
    rfl
  · rw [send_to_recipient_cb_total _ _ _ _ _ _ _ _ _ hcb]

/-- Servers registry with Gmail credentials filled in, used by concrete
witnesses. -/
def exServersGmail : List (String × SMTPConfig) :=
  get_smtp_servers "sender@gmail.com" "pw" "" "" "" ""

/-- Task with one recipient and one attachment path that will not exist
in the witness file system. -/
def exTaskAttach : EmailTask :=
  { task_id := "t1", recipients := ["bob@x.com"], subject := "s", body := "b",
    attachments := ["/tmp/missing.pdf"], server := "Gmail" }

/-- Witness for C7 at a concrete input. -/
theorem missing_attachment_witness :
    ∃ r m, (send_to_recipient false (fun s => s) exServersGmail [] true true
        (fun _ _ => false) "bob@x.com" exTaskAttach).smtp = some r ∧
      r.message = some m ∧
      "/tmp/missing.pdf" ∉ m.attachments ∧
      BuildWarning.attachmentNotFound "/tmp/missing.pdf" ∈ r.warnings ∧
      r.result = true ∧
      (send_to_recipient false (fun s => s) exServersGmail [] true true
        (fun _ _ => false) "bob@x.com" exTaskAttach).events =
        [(sanitize_notification_id exTaskAttach.task_id "bob@x.com", Status.sending),
         (sanitize_notification_id exTaskAttach.task_id "bob@x.com",
          if true then Status.success else Status.error)] ∧
      (send_to_recipient false (fun s => s) exServersGmail [] true true
        (fun _ _ => false) "bob@x.com" exTaskAttach).escaped = false :=
  missing_attachment_is_skipped_not_fatal (fun s => s) exServersGmail [] true true
    (fun _ _ => false) "bob@x.com" exTaskAttach
    { host := "smtp.gmail.com", port := 465, use_tls := true,
      email := "sender@gmail.com", password := "pw" } "/tmp/missing.pdf"
    (fun _ _ => rfl) (by decide) (by decide) (by decide) (by decide) rfl

/-- The `success` Boolean `send_to_recipient` computes for an attempt:
the simulation oracle in test mode, the `_send_via_smtp` result in real
mode. -/
def attemptSuccess (test_mode : Bool) (md2html : String → String)
    (servers : List (String × SMTPConfig)) (fs : FileSystem)
    (netOk simSuccess : Bool) (recipient : String) (task : EmailTask) : Bool :=
  if test_mode then simSuccess
  else (send_via_smtp md2html servers fs netOk recipient task).result

/-- The terminal status `send_to_recipient` derives from
`attemptSuccess`. -/
def attemptStatus (test_mode : Bool) (md2html : String → String)
    (servers : List (String × SMTPConfig)) (fs : FileSystem)
    (netOk simSuccess : Bool) (recipient : String) (task : EmailTask) : Status :=
  if attemptSuccess test_mode md2html servers fs netOk simSuccess recipient task
  then Status.success else Status.error

/-- Counterexample to C4 — a status callback that raises when invoked
with `"sending"` is called outside the `try` block of
`send_to_recipient`, so its exception escapes the attempt and no send
and no terminal event ever happen for that recipient. -/
theorem sending_callback_exception_escapes :
    (send_to_recipient true (fun s => s) [] [] true true
      (fun _ st => st == Status.sending) "r@x.com"
      { task_id := "t1", recipients := ["r@x.com"], subject := "s", body := "",
        attachments := [], server := "Gmail" }).escaped = true ∧
    (send_to_recipient true (fun s => s) [] [] true true
      (fun _ st => st == Status.sending) "r@x.com"
      { task_id := "t1", recipients := ["r@x.com"], subject := "s", body := "",
        attachments := [], server := "Gmail" }).events
      = [("t1_r_at_x_com", Status.sending)] ∧
    (send_to_recipient true (fun s => s) [] [] true true
      (fun _ st => st == Status.sending) "r@x.com"
      { task_id := "t1", recipients := ["r@x.com"], subject := "s", body := "",
        attachments := [], server := "Gmail" }).sent = none := by
  refine ⟨rfl, ?_, rfl⟩
  decide

/-- C4 as amended — full characterization of callback failure handling
in `send_to_recipient`: an exception from the `"sending"` callback
escapes the attempt (it is invoked before the `try`) and aborts it; an
exception from the terminal callback is caught and answered with one
extra `"error"` invocation, leaving the computed outcome intact; an
exception from that extra `"error"` invocation escapes. -/
theorem callback_exception_behavior (test_mode : Bool) (md2html : String → String)
    (servers : List (String × SMTPConfig)) (fs : FileSystem)
    (netOk simSuccess : Bool) (cbRaises : String → Status → Bool)
    (recipient : String) (task : EmailTask) :
    (send_to_recipient test_mode md2html servers fs netOk simSuccess cbRaises recipient
        task).escaped
      = (cbRaises (sanitize_notification_id task.task_id recipient) Status.sending ||
         (cbRaises (sanitize_notification_id task.task_id recipient)
            (attemptStatus test_mode md2html servers fs netOk simSuccess recipient task) &&
          cbRaises (sanitize_notification_id task.task_id recipient) Status.error)) ∧
    (send_to_recipient test_mode md2html servers fs netOk simSuccess cbRaises recipient
        task).events
      = (if cbRaises (sanitize_notification_id task.task_id recipient) Status.sending then
          [(sanitize_notification_id task.task_id recipient, Status.sending)]
         else if cbRaises (sanitize_notification_id task.task_id recipient)
            (attemptStatus test_mode md2html servers fs netOk simSuccess recipient task) then
          [(sanitize_notification_id task.task_id recipient, Status.sending),
           (sanitize_notification_id task.task_id recipient,
            attemptStatus test_mode md2html servers fs netOk simSuccess recipient task),
           (sanitize_notification_id task.task_id recipient, Status.error)]
         else
          [(sanitize_notification_id task.task_id recipient, Status.sending),
           (sanitize_notification_id task.task_id recipient,
            attemptStatus test_mode md2html servers fs netOk simSuccess recipient task)]) ∧
    (send_to_recipient test_mode md2html servers fs netOk simSuccess cbRaises recipient
        task).sent
      = (if cbRaises (sanitize_notification_id task.task_id recipient) Status.sending then
          none
         else some (attemptSuccess test_mode md2html servers fs netOk simSuccess recipient
          task)) := by
  simp only [send_to_recipient]
  cases h1 : cbRaises (sanitize_notification_id task.task_id recipient) Status.sending
  · cases h2 : cbRaises (sanitize_notification_id task.task_id recipient)
        (attemptStatus test_mode md2html servers fs netOk simSuccess recipient task)
    · have h2u : cbRaises (sanitize_notification_id task.task_id recipient)
          (if (if test_mode = true then simSuccess
               else (send_via_smtp md2html servers fs netOk recipient task).result) = true
           then Status.success else Status.error) = false := h2
      simp only [h2, h2u]
      exact ⟨rfl, rfl, rfl⟩
    · have h2u : cbRaises (sanitize_notification_id task.task_id recipient)
          (if (if test_mode = true then simSuccess
               else (send_via_smtp md2html servers fs netOk recipient task).result) = true
           then Status.success else Status.error) = true := h2
      simp only [h2, h2u]
      exact ⟨rfl, rfl, rfl⟩
  · exact ⟨rfl, rfl, rfl⟩

/-- Concrete two-recipient task used to exhibit per-recipient message
building. -/
def exTaskTwo : EmailTask :=
  { task_id := "t1", recipients := ["a@x.com", "b@x.com"], subject := "s", body := "b",
    attachments := [], server := "Gmail" }

/-- Counterexample to C2 — for a real-mode task with two recipients and a
configured profile, the MIME message is assembled twice (once inside each
recipient's `_send_via_smtp` call), not once per task, and the two built
message values differ (their `To` headers differ). -/
theorem message_built_twice_for_two_recipients :
    totalBuilds (send_email_task false (fun s => s) exServersGmail []
      (fun _ => true) (fun _ => true) (fun _ _ => false) exTaskTwo) = 2 ∧
    ¬ totalBuilds (send_email_task false (fun s => s) exServersGmail []
      (fun _ => true) (fun _ => true) (fun _ _ => false) exTaskTwo) = 1 ∧
    (send_email_task false (fun s => s) exServersGmail []
      (fun _ => true) (fun _ => true) (fun _ _ => false) exTaskTwo).map
        (fun a => (a.smtp.bind SmtpSendResult.message).map BuiltMessage.toAddr)
      = [some "a@x.com", some "b@x.com"] := by
  refine ⟨rfl, ?_, rfl⟩
  intro h
  have h2 : totalBuilds (send_email_task false (fun s => s) exServersGmail []
      (fun _ => true) (fun _ => true) (fun _ _ => false) exTaskTwo) = 2 := rfl
  rw [h] at h2
  exact absurd h2 (by decide)

/-- Sum of a constant-one map is the length. -/
lemma sum_map_eq_length {α : Type} (l : List α) (f : α → Nat)
    (h : ∀ a ∈ l, f a = 1) : (l.map f).sum = l.length := by
  induction l with
  | nil => rfl
  | cons a t ih =>
    simp only [List.map_cons, List.sum_cons, List.length_cons,
      h a (List.mem_cons_self a t), ih (fun b hb => h b (List.mem_cons_of_mem a hb))]
    omega

/-- C2 as amended — for a real-mode task with a configured profile and a
well-behaved callback, the `EmailTask → TransmittableMessage`
transformation is performed once per recipient (so `recipients.length`
times per task, not once), and each recipient's attempt carries its own
deterministic build `buildMessage md2html fs cfg.email r task`, whose
`To` header is that recipient. -/
theorem message_built_once_per_recipient (md2html : String → String)
    (servers : List (String × SMTPConfig)) (fs : FileSystem)
    (netOk simSuccess : String → Bool) (cbRaises : String → Status → Bool)
    (task : EmailTask) (cfg : SMTPConfig)
    (hcb : ∀ n s, cbRaises n s = false)
    (hcfg : List.lookup task.server servers = some cfg)
    (he : cfg.email ≠ "") (hpw : cfg.password ≠ "") :
    totalBuilds (send_email_task false md2html servers fs netOk simSuccess cbRaises task)
      = task.recipients.length ∧
    ∀ r ∈ task.recipients,
      (send_to_recipient false md2html servers fs (netOk r) (simSuccess r) cbRaises r
        task).smtp
        = some { result := netOk r, builds := 1, netAttempts := 1,
                 implicitTls := some (cfg.use_tls && cfg.port == 465),
                 message := some (buildMessage md2html fs cfg.email r task).1,
                 warnings := (buildMessage md2html fs cfg.email r task).2 } := by
  have hsmtp : ∀ r, (send_to_recipient false md2html servers fs (netOk r) (simSuccess r)
      cbRaises r task).smtp = some (send_via_smtp md2html servers fs (netOk r) r task) := by
    intro r
    rw [send_to_recipient_cb_total _ _ _ _ _ _ _ _ _ hcb]
    rfl
  constructor
  · unfold totalBuilds send_email_task
    rw [List.map_map]
    apply sum_map_eq_length
    intro r _
    show ((send_to_recipient false md2html servers fs (netOk r) (simSuccess r) cbRaises r
      task).smtp.map SmtpSendResult.builds).getD 0 = 1
    rw [hsmtp r, send_via_smtp_configured _ _ _ _ _ _ _ hcfg he hpw]
    rfl
  · intro r _
    rw [hsmtp r, send_via_smtp_configured _ _ _ _ _ _ _ hcfg he hpw]

/-- Witness for the amended C2 at a concrete input. -/
theorem message_built_once_per_recipient_witness :
    totalBuilds (send_email_task false (fun s => s) exServersGmail []
      (fun _ => true) (fun _ => true) (fun _ _ => false) exTaskTwo)
      = exTaskTwo.recipients.length ∧
    (send_to_recipient false (fun s => s) exServersGmail [] true true
      (fun _ _ => false) "a@x.com" exTaskTwo).smtp
      = some { result := true, builds := 1, netAttempts := 1,
               implicitTls := some true,
               message := some (buildMessage (fun s => s) [] "sender@gmail.com" "a@x.com"
                exTaskTwo).1,
               warnings := (buildMessage (fun s => s) [] "sender@gmail.com" "a@x.com"
                exTaskTwo).2 } :=
  ⟨(message_built_once_per_recipient (fun s => s) exServersGmail []
      (fun _ => true) (fun _ => true) (fun _ _ => false) exTaskTwo
      { host := "smtp.gmail.com", port := 465, use_tls := true,
        email := "sender@gmail.com", password := "pw" }
      (fun _ _ => rfl) (by decide) (by decide) (by decide)).1,
   (message_built_once_per_recipient (fun s => s) exServersGmail []
      (fun _ => true) (fun _ => true) (fun _ _ => false) exTaskTwo
      { host := "smtp.gmail.com", port := 465, use_tls := true,
        email := "sender@gmail.com", password := "pw" }
      (fun _ _ => rfl) (by decide) (by decide) (by decide)).2 "a@x.com" (by decide)⟩

/-- State owned by `EmailSender`'s queue worker: the pending queue
(`self.email_queue`), the active-job dict (`self.active_tasks`, modelled
as an insertion-ordered association list from `task_id` to a done flag
standing for `asyncio.Task.done()`), and a ghost list recording every
fan-out job creation (`asyncio.create_task(self.send_email_task(task))`)
in order. -/
structure DispatcherState where
  email_queue : List EmailTask
  active_tasks : List (String × Bool)
  jobsStarted : List EmailTask
deriving DecidableEq, Repr

/-- The first phase of one `worker` loop iteration: iterate over a
snapshot of the queue (`self.email_queue[:]`); every task whose
`task_id` is not yet a key of the (progressively extended) active dict
gets a fan-out job: its key is added with done = false and the task is
appended to `tasks_to_start`.  Returns the extended active dict and
`tasks_to_start` in order. -/
def startPhase : List EmailTask → List (String × Bool) → List (String × Bool) × List EmailTask
  | [], active => (active, [])
  | t :: rest, active =>
    if (List.lookup t.task_id active).isSome then startPhase rest active
    else
      let res := startPhase rest (active ++ [(t.task_id, false)])
      (res.1, t :: res.2)

/-- The removal phase: `for task in tasks_to_start: if task in
self.email_queue: self.email_queue.remove(task)` — each started task
removes (at most) the first queue entry equal to it. -/
def removeStarted (queue : List EmailTask) (started : List EmailTask) : List EmailTask :=
  started.foldl (fun q t => q.erase t) queue

/-- One full body of the `while True` loop of `EmailSender.worker` (the
code after `await asyncio.sleep(0.5)`, which runs without suspension):
start phase, removal phase, then reclamation of completed jobs (every
key whose job is done is deleted from the active dict). -/
def worker_iteration (s : DispatcherState) : DispatcherState :=
  let res := startPhase s.email_queue s.active_tasks
  { email_queue := removeStarted s.email_queue res.2,
    active_tasks := res.1.filter (fun p => !p.2),
    jobsStarted := s.jobsStarted ++ res.2 }

/-- Interleaving-level events of the dispatcher's life: a caller
enqueues (`add_to_queue`), a running fan-out job completes (its
`asyncio.Task.done()` becomes true — driven by the scheduler between
loop bodies), or the worker loop runs one body. -/
inductive DispatcherOp where
  | enqueue : EmailTask → DispatcherOp
  | jobCompletes : String → DispatcherOp
  | workerIter : DispatcherOp
deriving DecidableEq, Repr

/-- Effect of one event on the dispatcher state.  `add_to_queue`
appends; a completion marks the job's done flag; a worker iteration runs
`worker_iteration`. -/
def dispatchStep (s : DispatcherState) : DispatcherOp → DispatcherState
  | DispatcherOp.enqueue t => { s with email_queue := s.email_queue ++ [t] }
  | DispatcherOp.jobCompletes tid =>
    { s with active_tasks :=
        s.active_tasks.map (fun p => if p.1 = tid then (p.1, true) else p) }
  | DispatcherOp.workerIter => worker_iteration s

/-- Fresh `EmailSender` state: empty queue, empty active dict. -/
def initialState : DispatcherState :=
  { email_queue := [], active_tasks := [], jobsStarted := [] }

/-- Run a sequence of dispatcher events from the fresh state. -/
def runDispatcher (ops : List DispatcherOp) : DispatcherState :=
  ops.foldl dispatchStep initialState

/-- The task values passed to `add_to_queue` during a run, in order. -/
def enqueuedTasks (ops : List DispatcherOp) : List EmailTask :=
  ops.filterMap (fun op => match op with
    | DispatcherOp.enqueue t => some t
    | _ => none)

/-- The task enqueued twice in the C1 counterexample. -/
def dupTask : EmailTask :=
  { task_id := "t1", recipients := ["r@x.com"], subject := "s", body := "b",
    attachments := [], server := "Gmail" }

/-- Counterexample to C1 — enqueue the same task twice, run one worker
iteration (starts one job, removes only the first queue copy), let the
job complete, run two more iterations (the first reclaims the done job,
the next starts a second fan-out job from the leftover duplicate queue
entry): two fan-out jobs are created for `"t1"`, not exactly one. -/
theorem duplicate_enqueue_starts_second_job :
    (runDispatcher [DispatcherOp.enqueue dupTask, DispatcherOp.enqueue dupTask,
      DispatcherOp.workerIter, DispatcherOp.jobCompletes "t1",
      DispatcherOp.workerIter, DispatcherOp.workerIter]).jobsStarted
      = [dupTask, dupTask] ∧
    ((runDispatcher [DispatcherOp.enqueue dupTask, DispatcherOp.enqueue dupTask,
      DispatcherOp.workerIter, DispatcherOp.jobCompletes "t1",
      DispatcherOp.workerIter, DispatcherOp.workerIter]).jobsStarted.filter
        (fun t => t.task_id == "t1")).length = 2 := by
  constructor <;> rfl

lemma lookup_none_not_mem_keys {β : Type} (k : String) (l : List (String × β))
    (h : List.lookup k l = none) : k ∉ l.map Prod.fst := by
  induction l with
  | nil => simp
  | cons p rest ih =>
    cases hkp : k == p.1 with
    | true =>
      simp only [List.lookup, hkp] at h
      exact Option.noConfusion h
    | false =>
      simp only [List.lookup, hkp] at h
      simp only [List.map_cons, List.mem_cons]
      rintro (rfl | hmem)
      · simp at hkp
      · exact ih h hmem

lemma startPhase_keys_nodup (q : List EmailTask) :
    ∀ active : List (String × Bool), (active.map Prod.fst).Nodup →
      ((startPhase q active).1.map Prod.fst).Nodup := by
  induction q with
  | nil => intro active h; exact h
  | cons t rest ih =>
    intro active h
    rw [startPhase]
    cases hl : List.lookup t.task_id active with
    | some b =>
      simp only [hl, Option.isSome_some, if_true]
      exact ih active h
    | none =>
      simp only [hl, Option.isSome_none, Bool.false_eq_true, if_false]
      apply ih
      rw [List.map_append]
      simp only [List.map_cons, List.map_nil]
      rw [List.nodup_append]
      refine ⟨h, List.nodup_singleton _, ?_⟩
      simp only [List.disjoint_singleton]
      exact lookup_none_not_mem_keys t.task_id active hl

lemma keys_after_jobCompletes (l : List (String × Bool)) (tid : String) :
    ((l.map (fun p => if p.1 = tid then (p.1, true) else p)).map Prod.fst)
      = l.map Prod.fst := by
  induction l with
  | nil => rfl
  | cons p rest ih =>
    simp only [List.map_cons, ih]
    by_cases h : p.1 = tid
    · simp [h]
    · simp [h]

lemma worker_iteration_keys_nodup (s : DispatcherState)
    (h : (s.active_tasks.map Prod.fst).Nodup) :
    ((worker_iteration s).active_tasks.map Prod.fst).Nodup := by
  have h1 := startPhase_keys_nodup s.email_queue s.active_tasks h
  have hsub : List.Sublist (((startPhase s.email_queue s.active_tasks).1.filter
      (fun p => !p.2)).map Prod.fst)
      (((startPhase s.email_queue s.active_tasks).1).map Prod.fst) :=
    (List.filter_sublist _).map Prod.fst
  exact h1.sublist hsub

/-- C1 as amended — in every reachable dispatcher state the active-job
dict has pairwise-distinct `task_id` keys: at most one fan-out job per
`taskId` is active at any time, because the worker's start guard only
admits tasks whose id is absent from the active set.  (The "exactly one
job ever" half of the original claim fails: see the counterexample — a
leftover duplicate queue entry starts a second job after the first is
reclaimed.) -/
theorem at_most_one_active_job_per_task_id (ops : List DispatcherOp) :
    ((runDispatcher ops).active_tasks.map Prod.fst).Nodup := by
  have key : ∀ (l : List DispatcherOp) (s : DispatcherState),
      (s.active_tasks.map Prod.fst).Nodup →
      ((l.foldl dispatchStep s).active_tasks.map Prod.fst).Nodup := by
    intro l
    induction l with
    | nil => intro s h; exact h
    | cons op rest ih =>
      intro s h
      apply ih
      cases op with
      | enqueue t => exact h
      | jobCompletes tid =>
        show (((s.active_tasks.map (fun p => if p.1 = tid then (p.1, true) else p))).map
          Prod.fst).Nodup
        rw [keys_after_jobCompletes]
        exact h
      | workerIter => exact worker_iteration_keys_nodup s h
  exact key ops initialState List.nodup_nil

lemma mem_removeStarted (started : List EmailTask) :
    ∀ (queue : List EmailTask) (t : EmailTask),
      t ∈ removeStarted queue started → t ∈ queue := by
  induction started with
  | nil => intro q t h; exact h
  | cons s ss ih =>
    intro q t h
    have h' : t ∈ removeStarted (q.erase s) ss := h
    exact List.erase_subset _ _ (ih (q.erase s) t h')

lemma mem_startPhase_toStart (q : List EmailTask) :
    ∀ (active : List (String × Bool)) (t : EmailTask),
      t ∈ (startPhase q active).2 → t ∈ q := by
  induction q with
  | nil => intro active t h; simp [startPhase] at h
  | cons s rest ih =>
    intro active t h
    rw [startPhase] at h
    by_cases hl : (List.lookup s.task_id active).isSome
    · rw [if_pos hl] at h
      exact List.mem_cons_of_mem _ (ih _ _ h)
    · rw [if_neg hl] at h
      have h2 : t ∈ s :: (startPhase rest (active ++ [(s.task_id, false)])).2 := h
      rcases List.mem_cons.mp h2 with rfl | h'
      · exact List.mem_cons_self _ _
      · exact List.mem_cons_of_mem _ (ih _ _ h')

lemma dispatcher_state_tasks_from_inputs (l : List DispatcherOp) :
    ∀ (s : DispatcherState) (t : EmailTask),
      ((t ∈ (l.foldl dispatchStep s).email_queue →
          t ∈ s.email_queue ∨ t ∈ enqueuedTasks l) ∧
       (t ∈ (l.foldl dispatchStep s).jobsStarted →
          t ∈ s.jobsStarted ∨ t ∈ s.email_queue ∨ t ∈ enqueuedTasks l)) := by
  induction l with
  | nil =>
    intro s t
    exact ⟨fun h => Or.inl h, fun h => Or.inl h⟩
  | cons op rest ih =>
    intro s t
    have ih' := ih (dispatchStep s op) t
    cases op with
    | enqueue u =>
      refine ⟨fun h => ?_, fun h => ?_⟩
      · rcases ih'.1 h with hq | he
        · rcases List.mem_append.mp hq with h1 | h2
          · exact Or.inl h1
          · right
            simp only [enqueuedTasks, List.filterMap_cons]
            simp only [List.mem_singleton] at h2
            exact h2 ▸ List.mem_cons_self _ _
        · right
          simp only [enqueuedTasks, List.filterMap_cons]
          exact List.mem_cons_of_mem _ he
      · rcases ih'.2 h with hj | hq | he
        · exact Or.inl hj
        · rcases List.mem_append.mp hq with h1 | h2
          · exact Or.inr (Or.inl h1)
          · right; right
            simp only [enqueuedTasks, List.filterMap_cons]
            simp only [List.mem_singleton] at h2
            exact h2 ▸ List.mem_cons_self _ _
        · right; right
          simp only [enqueuedTasks, List.filterMap_cons]
          exact List.mem_cons_of_mem _ he
    | jobCompletes tid =>
      refine ⟨fun h => ?_, fun h => ?_⟩
      · rcases ih'.1 h with hq | he
        · exact Or.inl hq
        · right
          simpa only [enqueuedTasks, List.filterMap_cons] using he
      · rcases ih'.2 h with hj | hq | he
        · exact Or.inl hj
        · exact Or.inr (Or.inl hq)
        · right; right
          simpa only [enqueuedTasks, List.filterMap_cons] using he
    | workerIter =>
      refine ⟨fun h => ?_, fun h => ?_⟩
      · rcases ih'.1 h with hq | he
        · exact Or.inl (mem_removeStarted _ _ _ hq)
        · right
          simpa only [enqueuedTasks, List.filterMap_cons] using he
      · rcases ih'.2 h with hj | hq | he
        · rcases List.mem_append.mp hj with h1 | h2
          · exact Or.inl h1
          · exact Or.inr (Or.inl (mem_startPhase_toStart _ _ _ h2))
        · exact Or.inr (Or.inl (mem_removeStarted _ _ _ hq))
        · right; right
          simpa only [enqueuedTasks, List.filterMap_cons] using he

/-- C9 — the dispatcher, fan-out job and transport never mutate a task:
every task value found in the pending queue, and every task value a
fan-out job was started with, after any sequence of operations, is
exactly one of the values passed to `add_to_queue` (the transport side
is a pure function of its task argument in this embedding, and
`send_email_task` receives the task value recorded in `jobsStarted`
unchanged). -/
theorem dispatcher_never_mutates_tasks (ops : List DispatcherOp) (t : EmailTask) :
    (t ∈ (runDispatcher ops).email_queue → t ∈ enqueuedTasks ops) ∧
    (t ∈ (runDispatcher ops).jobsStarted → t ∈ enqueuedTasks ops) := by
  have key := dispatcher_state_tasks_from_inputs ops initialState t
  constructor
  · intro h
    rcases key.1 h with h0 | he
    · simp [initialState] at h0
    · exact he
  · intro h
    rcases key.2 h with h0 | h0 | he
    · simp [initialState] at h0
    · simp [initialState] at h0
    · exact he

/-- Witness for C9: the task started by a worker iteration is the exact
enqueued value. -/
theorem dispatcher_never_mutates_tasks_witness :
    dupTask ∈ enqueuedTasks [DispatcherOp.enqueue dupTask, DispatcherOp.workerIter] :=
  (dispatcher_never_mutates_tasks [DispatcherOp.enqueue dupTask,
    DispatcherOp.workerIter] dupTask).2 (by decide)

/-- `nthD l k d`: the `k`-th element of `l`, or `d` past the end. -/
def nthD {α : Type} (l : List α) (k : Nat) (d : α) : α := (l.get? k).getD d

lemma nthD_map_lt {α β : Type} (f : α → β) (l : List α) (d1 : α) (d2 : β) :
    ∀ k, k < l.length → nthD (l.map f) k d2 = f (nthD l k d1) := by
  induction l with
  | nil => intro k hk; simp at hk
  | cons a t ih =>
    intro k hk
    cases k with
    | zero => rfl
    | succ n => exact ih n (Nat.lt_of_succ_lt_succ hk)

/-- One cooperative step of the fan-out interleaving: remove and return
the next pending event of recipient attempt `i`, if any. -/
def popAt {α : Type} : List (List α) → Nat → Option α × List (List α)
  | [], _ => (none, [])
  | q :: qs, 0 =>
    match q with
    | [] => (none, q :: qs)
    | a :: rest => (some a, rest :: qs)
  | q :: qs, n + 1 =>
    ((popAt qs n).1, q :: (popAt qs n).2)

/-- Run a scheduler choice sequence over the per-attempt event queues of
one fan-out job: each chosen index emits that attempt's next event (the
attempts run concurrently under `asyncio.gather`, so any interleaving
that preserves each attempt's own program order is a possible
execution).  Returns the emitted trace, tagged with the attempt index,
and the remaining queues. -/
def runSched {α : Type} : List Nat → List (List α) → List (Nat × α) × List (List α)
  | [], qs => ([], qs)
  | i :: sched, qs =>
    match popAt qs i with
    | (some a, qs2) => ((i, a) :: (runSched sched qs2).1, (runSched sched qs2).2)
    | (none, _) => runSched sched qs

/-- The events of the trace belonging to attempt `k`, in order. -/
def filterTag {α : Type} (k : Nat) (tr : List (Nat × α)) : List α :=
  tr.filterMap (fun x => if x.1 = k then some x.2 else none)

/-- The per-attempt event queues of one fan-out job. -/
def fanOutQueues (test_mode : Bool) (md2html : String → String)
    (servers : List (String × SMTPConfig)) (fs : FileSystem)
    (netOk simSuccess : String → Bool) (cbRaises : String → Status → Bool)
    (task : EmailTask) : List (List (String × Status)) :=
  (send_email_task test_mode md2html servers fs netOk simSuccess cbRaises task).map
    AttemptResult.events

/-- Whether a status transition is terminal (`success` or `error`). -/
def isTerminalStatus : Status → Bool
  | Status.sending => false
  | Status.success => true
  | Status.error => true

lemma popAt_fst_none {α : Type} :
    ∀ (qs : List (List α)) (i : Nat), (popAt qs i).1 = none → (popAt qs i).2 = qs := by
  intro qs
  induction qs with
  | nil => intro i _; rfl
  | cons q qs ih =>
    intro i h
    cases i with
    | zero =>
      cases q with
      | nil => rfl
      | cons a rest => exact Option.noConfusion h
    | succ n =>
      show (q :: (popAt qs n).2) = q :: qs
      rw [ih n h]

lemma popAt_sum_some {α : Type} (p : α → Bool) :
    ∀ (qs : List (List α)) (i : Nat) (a : α), (popAt qs i).1 = some a →
      ((popAt qs i).2.map (List.countP p)).sum + (if p a then 1 else 0)
        = (qs.map (List.countP p)).sum := by
  intro qs
  induction qs with
  | nil => intro i a h; exact Option.noConfusion h
  | cons q qs ih =>
    intro i a h
    cases i with
    | zero =>
      cases q with
      | nil => exact Option.noConfusion h
      | cons b rest =>
        have hb : b = a := Option.some.inj h
        subst hb
        show ((rest :: qs).map (List.countP p)).sum + _ = _
        simp only [List.map_cons, List.sum_cons, List.countP_cons]
        omega
    | succ n =>
      have h' : (popAt qs n).1 = some a := h
      have := ih n a h'
      show ((q :: (popAt qs n).2).map (List.countP p)).sum + _ = _
      simp only [List.map_cons, List.sum_cons]
      omega

lemma popAt_nthD_some {α : Type} :
    ∀ (qs : List (List α)) (i : Nat) (a : α), (popAt qs i).1 = some a →
      nthD qs i [] = a :: nthD (popAt qs i).2 i [] := by
  intro qs
  induction qs with
  | nil => intro i a h; exact Option.noConfusion h
  | cons q qs ih =>
    intro i a h
    cases i with
    | zero =>
      cases q with
      | nil => exact Option.noConfusion h
      | cons b rest =>
        have hb : b = a := Option.some.inj h
        subst hb
        rfl
    | succ n =>
      have h' : (popAt qs n).1 = some a := h
      exact ih n a h'

lemma popAt_nthD_ne {α : Type} :
    ∀ (qs : List (List α)) (i j : Nat), j ≠ i →
      nthD (popAt qs i).2 j [] = nthD qs j [] := by
  intro qs
  induction qs with
  | nil => intro i j _; rfl
  | cons q qs ih =>
    intro i j hne
    cases i with
    | zero =>
      cases q with
      | nil => rfl
      | cons b rest =>
        cases j with
        | zero => exact absurd rfl hne
        | succ m => rfl
    | succ n =>
      cases j with
      | zero => rfl
      | succ m =>
        have hne' : m ≠ n := fun hc => hne (by rw [hc])
        exact ih n m hne'

lemma runSched_countP {α : Type} (p : α → Bool) (sched : List Nat) :
    ∀ qs : List (List α),
      List.countP (fun x => p x.2) (runSched sched qs).1
        + ((runSched sched qs).2.map (List.countP p)).sum
      = (qs.map (List.countP p)).sum := by
  induction sched with
  | nil => intro qs; simp [runSched]
  | cons i sched ih =>
    intro qs
    rw [runSched]
    rcases hpop : popAt qs i with ⟨x, qs2⟩
    cases x with
    | none => exact ih qs
    | some a =>
      have h1 : (popAt qs i).1 = some a := by rw [hpop]
      have h2 : (popAt qs i).2 = qs2 := by rw [hpop]
      have hs := popAt_sum_some p qs i a h1
      rw [h2] at hs
      simp only [List.countP_cons]
      have := ih qs2
      omega

lemma filterTag_cons_self {α : Type} (k : Nat) (a : α) (tr : List (Nat × α)) :
    filterTag k ((k, a) :: tr) = a :: filterTag k tr := by
  simp [filterTag, List.filterMap_cons]

lemma filterTag_cons_ne {α : Type} (i k : Nat) (a : α) (tr : List (Nat × α))
    (h : i ≠ k) : filterTag k ((i, a) :: tr) = filterTag k tr := by
  simp [filterTag, List.filterMap_cons, h]

lemma runSched_filterTag {α : Type} (k : Nat) (sched : List Nat) :
    ∀ qs : List (List α),
      filterTag k (runSched sched qs).1 ++ nthD (runSched sched qs).2 k []
        = nthD qs k [] := by
  induction sched with
  | nil => intro qs; simp [runSched, filterTag]
  | cons i sched ih =>
    intro qs
    rw [runSched]
    rcases hpop : popAt qs i with ⟨x, qs2⟩
    cases x with
    | none => exact ih qs
    | some a =>
      have h1 : (popAt qs i).1 = some a := by rw [hpop]
      have h2 : (popAt qs i).2 = qs2 := by rw [hpop]
      by_cases hik : i = k
      · subst hik
        rw [filterTag_cons_self, List.cons_append, ih qs2,
          popAt_nthD_some qs i a h1, h2]
      · rw [filterTag_cons_ne i k a _ hik, ih qs2, ← h2,
          popAt_nthD_ne qs i k (fun hc => hik hc.symm)]

lemma sum_countP_nil_of_all_nil {α : Type} (p : α → Bool) (l : List (List α))
    (h : ∀ q ∈ l, q = []) : (l.map (List.countP p)).sum = 0 := by
  induction l with
  | nil => rfl
  | cons q t ih =>
    simp only [List.map_cons, List.sum_cons]
    rw [h q (List.mem_cons_self q t), ih (fun b hb => h b (List.mem_cons_of_mem q hb))]
    rfl

lemma nthD_nil_of_all_nil {α : Type} (l : List (List α))
    (h : ∀ q ∈ l, q = []) : ∀ k, nthD l k [] = [] := by
  induction l with
  | nil => intro k; cases k <;> rfl
  | cons q t ih =>
    intro k
    cases k with
    | zero => exact h q (List.mem_cons_self q t)
    | succ n => exact ih (fun b hb => h b (List.mem_cons_of_mem q hb)) n

lemma map_eq_of_mem {α β : Type} (l : List α) (f g : α → β)
    (h : ∀ a ∈ l, f a = g a) : l.map f = l.map g := by
  induction l with
  | nil => rfl
  | cons a t ih =>
    simp only [List.map_cons]
    rw [h a (List.mem_cons_self a t), ih (fun b hb => h b (List.mem_cons_of_mem a hb))]

lemma fanOutQueues_of_cb_total (test_mode : Bool) (md2html : String → String)
    (servers : List (String × SMTPConfig)) (fs : FileSystem)
    (netOk simSuccess : String → Bool) (cbRaises : String → Status → Bool)
    (task : EmailTask) (hcb : ∀ n s, cbRaises n s = false) :
    fanOutQueues test_mode md2html servers fs netOk simSuccess cbRaises task
      = task.recipients.map (fun r =>
          [(sanitize_notification_id task.task_id r, Status.sending),
           (sanitize_notification_id task.task_id r,
            attemptStatus test_mode md2html servers fs (netOk r) (simSuccess r) r task)]) := by
  unfold fanOutQueues send_email_task
  rw [List.map_map]
  apply map_eq_of_mem
  intro r _
  show (send_to_recipient test_mode md2html servers fs (netOk r) (simSuccess r) cbRaises r
    task).events = _
  rw [send_to_recipient_cb_total _ _ _ _ _ _ _ _ _ hcb]
  rfl

lemma attemptStatus_not_sending (test_mode : Bool) (md2html : String → String)
    (servers : List (String × SMTPConfig)) (fs : FileSystem)
    (netOk simSuccess : Bool) (recipient : String) (task : EmailTask) :
    (attemptStatus test_mode md2html servers fs netOk simSuccess recipient task
      == Status.sending) = false := by
  unfold attemptStatus
  split <;> rfl

lemma attemptStatus_terminal (test_mode : Bool) (md2html : String → String)
    (servers : List (String × SMTPConfig)) (fs : FileSystem)
    (netOk simSuccess : Bool) (recipient : String) (task : EmailTask) :
    isTerminalStatus (attemptStatus test_mode md2html servers fs netOk simSuccess
      recipient task) = true := by
  unfold attemptStatus
  split <;> rfl

/-- C3 — join completeness of a fan-out job: for any scheduler
interleaving of the per-recipient attempts that runs the job to
completion (all attempt queues drained) with a well-behaved callback,
the observed trace contains exactly `recipients.length` events with
status `sending` and exactly `recipients.length` terminal events, and
attempt `k`'s events in the trace are exactly its `sending` event
followed by its terminal event, both carrying the same notification id
`sanitize(taskId, recipient k)` — which pairs each terminal event with
exactly one prior `sending` event. -/
theorem fan_out_join_completeness
    (test_mode : Bool) (md2html : String → String)
    (servers : List (String × SMTPConfig)) (fs : FileSystem)
    (netOk simSuccess : String → Bool) (cbRaises : String → Status → Bool)
    (task : EmailTask) (sched : List Nat)
    (hcb : ∀ n s, cbRaises n s = false)
    (hdone : ∀ q ∈ (runSched sched (fanOutQueues test_mode md2html servers fs netOk
      simSuccess cbRaises task)).2, q = []) :
    List.countP (fun e => e.2.2 == Status.sending)
        (runSched sched (fanOutQueues test_mode md2html servers fs netOk simSuccess
          cbRaises task)).1 = task.recipients.length ∧
    List.countP (fun e => isTerminalStatus e.2.2)
        (runSched sched (fanOutQueues test_mode md2html servers fs netOk simSuccess
          cbRaises task)).1 = task.recipients.length ∧
    (∀ k, k < task.recipients.length →
      filterTag k (runSched sched (fanOutQueues test_mode md2html servers fs netOk
          simSuccess cbRaises task)).1
        = [(sanitize_notification_id task.task_id (nthD task.recipients k ""),
            Status.sending),
           (sanitize_notification_id task.task_id (nthD task.recipients k ""),
            attemptStatus test_mode md2html servers fs (netOk (nthD task.recipients k ""))
              (simSuccess (nthD task.recipients k "")) (nthD task.recipients k "")
              task)]) := by
  have hq := fanOutQueues_of_cb_total test_mode md2html servers fs netOk simSuccess
    cbRaises task hcb
  refine ⟨?_, ?_, ?_⟩
  · have hz := sum_countP_nil_of_all_nil
      (fun e : String × Status => e.2 == Status.sending) _ hdone
    have hc := runSched_countP (fun e : String × Status => e.2 == Status.sending) sched
      (fanOutQueues test_mode md2html servers fs netOk simSuccess cbRaises task)
    rw [hz, Nat.add_zero, hq, List.map_map] at hc
    have hlen := sum_map_eq_length task.recipients
      (List.countP (fun e : String × Status => e.2 == Status.sending) ∘ (fun r =>
        [(sanitize_notification_id task.task_id r, Status.sending),
         (sanitize_notification_id task.task_id r,
          attemptStatus test_mode md2html servers fs (netOk r) (simSuccess r) r task)]))
      (by
        intro r _
        simp [Function.comp, List.countP_cons, attemptStatus_not_sending])
    rw [hlen] at hc
    rw [hq]
    exact hc
  · have hz := sum_countP_nil_of_all_nil
      (fun e : String × Status => isTerminalStatus e.2) _ hdone
    have hc := runSched_countP (fun e : String × Status => isTerminalStatus e.2) sched
      (fanOutQueues test_mode md2html servers fs netOk simSuccess cbRaises task)
    rw [hz, Nat.add_zero, hq, List.map_map] at hc
    have hlen := sum_map_eq_length task.recipients
      (List.countP (fun e : String × Status => isTerminalStatus e.2) ∘ (fun r =>
        [(sanitize_notification_id task.task_id r, Status.sending),
         (sanitize_notification_id task.task_id r,
          attemptStatus test_mode md2html servers fs (netOk r) (simSuccess r) r task)]))
      (by
        intro r _
        simp [Function.comp, List.countP_cons, attemptStatus_terminal,
          show isTerminalStatus Status.sending = false from rfl])
    rw [hlen] at hc
    rw [hq]
    exact hc
  · intro k hk
    have h2 := runSched_filterTag k sched
      (fanOutQueues test_mode md2html servers fs netOk simSuccess cbRaises task)
    rw [nthD_nil_of_all_nil _ hdone k, List.append_nil, hq] at h2
    rw [nthD_map_lt _ task.recipients "" [] k hk] at h2
    rw [hq]
    exact h2

/-- Witness for C3: a two-recipient simulated-mode job under the
round-robin schedule `[0, 1, 0, 1]` (which drains both attempts). -/
theorem fan_out_join_completeness_witness :
    List.countP (fun e => e.2.2 == Status.sending)
        (runSched [0, 1, 0, 1] (fanOutQueues true (fun s => s) [] [] (fun _ => true)
          (fun _ => true) (fun _ _ => false) exTaskTwo)).1
      = exTaskTwo.recipients.length ∧
    List.countP (fun e => isTerminalStatus e.2.2)
        (runSched [0, 1, 0, 1] (fanOutQueues true (fun s => s) [] [] (fun _ => true)
          (fun _ => true) (fun _ _ => false) exTaskTwo)).1
      = exTaskTwo.recipients.length ∧
    filterTag 0 (runSched [0, 1, 0, 1] (fanOutQueues true (fun s => s) [] []
          (fun _ => true) (fun _ => true) (fun _ _ => false) exTaskTwo)).1
      = [(sanitize_notification_id exTaskTwo.task_id (nthD exTaskTwo.recipients 0 ""),
          Status.sending),
         (sanitize_notification_id exTaskTwo.task_id (nthD exTaskTwo.recipients 0 ""),
          attemptStatus true (fun s => s) [] [] true true
            (nthD exTaskTwo.recipients 0 "") exTaskTwo)] :=
  have h := fan_out_join_completeness true (fun s => s) [] [] (fun _ => true)
    (fun _ => true) (fun _ _ => false) exTaskTwo [0, 1, 0, 1] (fun _ _ => rfl) (by decide)
  ⟨h.1, h.2.1, h.2.2 0 (by decide)⟩
